import Mathlib

/-!
Verification of the tsip Flow / AsyncFlow specification.

The repository `Nodge/tsip` ships the *interfaces* (`Flow`, `MutableFlow`,
`AsyncFlow`, `MutableAsyncFlow`, `FlowSubscription`), the conformance
validator (`validateFlowImplementation` and friends in
`src/specs/flow/tests/async-flow.ts`) and the test-runner adapter
(`src/utils/test-runner.ts`).  The Flow engine itself is not part of the
repository: third parties implement it against the interfaces and the
validator.  We therefore model the engine from the specification text
(equality-gated emit, snapshot-at-start notification, error aggregation,
promise-identity caching) and verify the stated properties against that
model; the test-runner adapter is embedded directly from its source.
-/

namespace Tsip

/-! ## The synchronous Flow engine

Modelled from the spec: the repository contains only the `Flow` /
`MutableFlow` interfaces and their conformance validator, not an engine
implementation.  Values and listener-thrown errors are modelled as natural
numbers; distinct numbers play the role of distinct object references, so
the reference-equality gate of `emit` becomes decidable equality on `Nat`.

A listener is modelled by the list of actions it performs when invoked:
subscribing a new listener (with its own behaviour), unsubscribing a
subscription by id, or throwing an error (which aborts the rest of the
listener's body, as a JavaScript `throw` would).
-/

/-- One action performed by a listener during notification. -/
inductive LStep where
  | subNew (behavior : List LStep)
  | unsub (sid : Nat)
  | throwErr (e : Nat)

/-- Modelled from the spec: the mutable cell behind a `MutableFlow` —
a current value plus the ordered listener set; `nextId` supplies fresh
subscription identifiers. -/
structure FlowState where
  value : Nat
  listeners : List (Nat × List LStep)
  nextId : Nat

/-- `getSnapshot()` returns the current value of the cell. -/
def getSnapshot (s : FlowState) : Nat :=
  s.value

/-- `subscribe(listener)` appends a fresh entry to the listener set and
returns the new subscription id. -/
def subscribe (s : FlowState) (l : List LStep) : FlowState × Nat :=
  ({ s with listeners := s.listeners ++ [(s.nextId, l)], nextId := s.nextId + 1 }, s.nextId)

/-- `subscription.unsubscribe()` removes the entry with the given id; it is
total (never raises) and removing an absent id is a no-op. -/
def unsubscribe (s : FlowState) (sid : Nat) : FlowState :=
  { s with listeners := s.listeners.filter (fun e => e.1 ≠ sid) }

/-- Result of running one listener body: the mutated cell and the error the
listener threw, if any. -/
structure StepResult where
  state : FlowState
  thrown : Option Nat

/-- Run a listener body: perform its actions in order against the live
cell; a throw aborts the remaining actions of this listener only. -/
def runSteps : FlowState → List LStep → StepResult
  | s, [] => ⟨s, none⟩
  | s, .subNew b :: rest => runSteps (subscribe s b).1 rest
  | s, .unsub sid :: rest => runSteps (unsubscribe s sid) rest
  | s, .throwErr e :: _ => ⟨s, some e⟩

/-- Result of a notification round: final cell, subscription ids invoked in
order, and the listener-thrown errors in invocation order. -/
structure NotifyResult where
  state : FlowState
  invoked : List Nat
  errors : List Nat

/-- Notify the snapshot of listeners taken when the round began: every
entry of the snapshot is invoked exactly once, in order, regardless of
subscriptions and unsubscriptions performed mid-round; errors are
collected, not propagated. -/
def notifyAll : FlowState → List (Nat × List LStep) → NotifyResult
  | s, [] => ⟨s, [], []⟩
  | s, (sid, l) :: rest =>
    let r := runSteps s l
    let n := notifyAll r.state rest
    ⟨n.state, sid :: n.invoked, r.thrown.toList ++ n.errors⟩

/-- The aggregated error thrown by `emit` when listeners failed: a fixed
message plus the ordered payload of listener errors. -/
structure AggregateError where
  message : String
  errors : List Nat
deriving Repr, DecidableEq

/-- The fixed message of the aggregated listener-failure error. -/
def failedToCallMsg : String := "Failed to call flow listeners"

/-- Result of `emit`: the new cell, the ids invoked this round, and the
aggregated error `emit` throws after the round, if any listener threw. -/
structure EmitResult where
  state : FlowState
  invoked : List Nat
  thrown : Option AggregateError

/-- Modelled from the spec: `emit(value)` — no-op when `value` equals the
current value; otherwise commit the new value first, then notify the
snapshot of listeners present at entry, and finally throw one aggregated
error if any listener threw. -/
def emit (s : FlowState) (v : Nat) : EmitResult :=
  if v = s.value then ⟨s, [], none⟩
  else
    let s1 : FlowState := { s with value := v }
    let n := notifyAll s1 s1.listeners
    ⟨n.state, n.invoked,
      if n.errors.isEmpty then none else some ⟨failedToCallMsg, n.errors⟩⟩

/-- The error a listener body throws, read off the behaviour alone: the
first `throwErr` action, if any (a throw aborts the rest of the body). -/
def thrownOf : List LStep → Option Nat
  | [] => none
  | .throwErr e :: _ => some e
  | .subNew _ :: rest => thrownOf rest
  | .unsub _ :: rest => thrownOf rest

/-- External operations on a flow cell, for stating multi-step facts. -/
inductive FlowOp where
  | sub (l : List LStep)
  | unsubOp (sid : Nat)
  | emitOp (v : Nat)

/-- Whether an operation is an `emit`. -/
def FlowOp.isEmit : FlowOp → Bool
  | .emitOp _ => true
  | _ => false

/-- Apply one external operation to the cell. -/
def applyOp (s : FlowState) : FlowOp → FlowState
  | .sub l => (subscribe s l).1
  | .unsubOp sid => unsubscribe s sid
  | .emitOp v => (emit s v).state

/-- Apply a sequence of external operations to the cell. -/
def applyOps (s : FlowState) (ops : List FlowOp) : FlowState :=
  ops.foldl applyOp s

/-- Well-formedness of a cell: subscription ids are pairwise distinct and
below the fresh-id counter.  Holds for every cell built through
`subscribe` / `unsubscribe` / `emit`. -/
def FlowState.wf (s : FlowState) : Prop :=
  (s.listeners.map Prod.fst).Nodup ∧ ∀ i ∈ s.listeners.map Prod.fst, i < s.nextId

/-! ### Basic lemmas about the notification round -/

theorem runSteps_thrown (l : List LStep) :
    ∀ s : FlowState, (runSteps s l).thrown = thrownOf l := by
  induction l with
  | nil => intro s; rfl
  | cons a rest ih =>
    intro s
    cases a with
    | subNew b => simpa [runSteps, thrownOf] using ih _
    | unsub sid => simpa [runSteps, thrownOf] using ih _
    | throwErr e => simp [runSteps, thrownOf]

theorem runSteps_value (l : List LStep) :
    ∀ s : FlowState, (runSteps s l).state.value = s.value := by
  induction l with
  | nil => intro s; rfl
  | cons a rest ih =>
    intro s
    cases a with
    | subNew b => simpa [runSteps, subscribe] using ih _
    | unsub sid => simpa [runSteps, unsubscribe] using ih _
    | throwErr e => simp [runSteps]

theorem notifyAll_invoked (L : List (Nat × List LStep)) :
    ∀ s : FlowState, (notifyAll s L).invoked = L.map Prod.fst := by
  induction L with
  | nil => intro s; rfl
  | cons e rest ih =>
    intro s
    obtain ⟨sid, l⟩ := e
    simp [notifyAll, ih]

theorem notifyAll_errors (L : List (Nat × List LStep)) :
    ∀ s : FlowState, (notifyAll s L).errors = L.filterMap (fun e => thrownOf e.2) := by
  induction L with
  | nil => intro s; rfl
  | cons e rest ih =>
    intro s
    obtain ⟨sid, l⟩ := e
    simp only [notifyAll, ih, List.filterMap_cons, runSteps_thrown]
    cases thrownOf l <;> simp

theorem notifyAll_value (L : List (Nat × List LStep)) :
    ∀ s : FlowState, (notifyAll s L).state.value = s.value := by
  induction L with
  | nil => intro s; rfl
  | cons e rest ih =>
    intro s
    obtain ⟨sid, l⟩ := e
    simp [notifyAll, ih, runSteps_value]

theorem emit_value (s : FlowState) (v : Nat) (h : v ≠ s.value) :
    (emit s v).state.value = v := by
  simp [emit, h, notifyAll_value]

theorem emit_invoked (s : FlowState) (v : Nat) (h : v ≠ s.value) :
    (emit s v).invoked = s.listeners.map Prod.fst := by
  simp [emit, h, notifyAll_invoked]

theorem emit_errors (s : FlowState) (v : Nat) (h : v ≠ s.value) :
    (emit s v).thrown =
      (if (s.listeners.filterMap (fun e => thrownOf e.2)).isEmpty then none
       else some ⟨failedToCallMsg, s.listeners.filterMap (fun e => thrownOf e.2)⟩) := by
  rw [emit, if_neg h]
  simp only [notifyAll_errors]

/-! ### Freshness and well-formedness invariants -/

/-- A cell avoids a subscription id: the id is not in the listener set and
is below the fresh-id counter, so it can never be handed out again. -/
def avoids (s : FlowState) (sid : Nat) : Prop :=
  sid ∉ s.listeners.map Prod.fst ∧ sid < s.nextId

theorem avoids_subscribe {s : FlowState} {sid : Nat} (h : avoids s sid) (l : List LStep) :
    avoids (subscribe s l).1 sid := by
  obtain ⟨hmem, hlt⟩ := h
  refine ⟨?_, Nat.lt_succ_of_lt hlt⟩
  simp only [subscribe, List.map_append, List.mem_append]
  rintro (hin | hin)
  · exact hmem hin
  · simp at hin
    omega

theorem avoids_unsubscribe {s : FlowState} {sid : Nat} (h : avoids s sid) (y : Nat) :
    avoids (unsubscribe s y) sid := by
  obtain ⟨hmem, hlt⟩ := h
  refine ⟨?_, hlt⟩
  intro hin
  apply hmem
  simp only [unsubscribe, List.mem_map] at hin ⊢
  obtain ⟨e, he, rfl⟩ := hin
  exact ⟨e, List.mem_of_mem_filter he, rfl⟩

theorem avoids_runSteps {sid : Nat} (l : List LStep) :
    ∀ s : FlowState, avoids s sid → avoids (runSteps s l).state sid := by
  induction l with
  | nil => intro s h; exact h
  | cons a rest ih =>
    intro s h
    cases a with
    | subNew b => exact ih _ (avoids_subscribe h b)
    | unsub y => exact ih _ (avoids_unsubscribe h y)
    | throwErr e => exact h

theorem avoids_notifyAll {sid : Nat} (L : List (Nat × List LStep)) :
    ∀ s : FlowState, avoids s sid → avoids (notifyAll s L).state sid := by
  induction L with
  | nil => intro s h; exact h
  | cons e rest ih =>
    intro s h
    obtain ⟨y, l⟩ := e
    exact ih _ (avoids_runSteps l s h)

theorem avoids_emit {s : FlowState} {sid : Nat} (h : avoids s sid) (v : Nat) :
    avoids (emit s v).state sid := by
  by_cases hv : v = s.value
  · simpa [emit, hv] using h
  · rw [emit, if_neg hv]
    exact avoids_notifyAll _ _ ⟨h.1, h.2⟩

theorem avoids_applyOps {sid : Nat} (ops : List FlowOp) :
    ∀ s : FlowState, avoids s sid → avoids (applyOps s ops) sid := by
  induction ops with
  | nil => intro s h; exact h
  | cons op rest ih =>
    intro s h
    cases op with
    | sub l => exact ih _ (avoids_subscribe h l)
    | unsubOp y => exact ih _ (avoids_unsubscribe h y)
    | emitOp v => exact ih _ (avoids_emit h v)

theorem avoids_of_unsubscribe_self {s : FlowState} {sid : Nat} (hlt : sid < s.nextId) :
    avoids (unsubscribe s sid) sid := by
  refine ⟨?_, hlt⟩
  intro hin
  simp only [unsubscribe, List.mem_map] at hin
  obtain ⟨e, he, rfl⟩ := hin
  have := List.of_mem_filter he
  simp at this

theorem subscribe_wf {s : FlowState} (h : s.wf) (l : List LStep) :
    (subscribe s l).1.wf := by
  obtain ⟨hnd, hbd⟩ := h
  constructor
  · simp only [subscribe, List.map_append, List.map_cons, List.map_nil]
    rw [List.nodup_append]
    refine ⟨hnd, List.nodup_singleton _, ?_⟩
    intro x hx hx'
    simp at hx'
    subst hx'
    exact absurd (hbd _ hx) (lt_irrefl _)
  · intro i hi
    simp only [subscribe, List.map_append, List.mem_append] at hi ⊢
    rcases hi with hi | hi
    · exact Nat.lt_succ_of_lt (hbd _ hi)
    · simp at hi
      omega

/-- If no emit happens, the snapshot never changes: `subscribe` and
`unsubscribe` leave the current value untouched. -/
theorem getSnapshot_applyOps_no_emit (ops : List FlowOp) :
    ∀ s : FlowState, (∀ op ∈ ops, op.isEmit = false) →
      getSnapshot (applyOps s ops) = getSnapshot s := by
  induction ops with
  | nil => intro s _; rfl
  | cons op rest ih =>
    intro s h
    cases op with
    | sub l =>
      rw [show applyOps s (.sub l :: rest) = applyOps (subscribe s l).1 rest from rfl,
        ih _ fun o ho => h o (List.mem_cons_of_mem _ ho)]
      rfl
    | unsubOp y =>
      rw [show applyOps s (.unsubOp y :: rest) = applyOps (unsubscribe s y) rest from rfl,
        ih _ fun o ho => h o (List.mem_cons_of_mem _ ho)]
      rfl
    | emitOp v =>
      have := h _ (List.mem_cons_self _ _)
      simp [FlowOp.isEmit] at this

/-! ### Example cells used to instantiate the claims -/

/-- Example cell: two throwing listeners around a quiet one. -/
def exThrowCell : FlowState :=
  ⟨0, [(0, [.throwErr 7]), (1, []), (2, [.throwErr 9])], 3⟩

/-- Example cell: the first listener unsubscribes the second mid-round. -/
def exUnsubCell : FlowState :=
  ⟨0, [(0, [.unsub 1]), (1, [])], 2⟩

/-- Example cell: the only listener subscribes a new listener mid-round. -/
def exSubDuringCell : FlowState :=
  ⟨0, [(0, [.subNew []])], 1⟩

/-- Example cell: two quiet listeners. -/
def exPlainCell : FlowState :=
  ⟨0, [(0, []), (1, [])], 2⟩

/-- Example cell: one throwing listener, current value 4. -/
def exNoopCell : FlowState :=
  ⟨4, [(0, [.throwErr 1])], 1⟩

/-! ### Claims about the Flow engine -/

/-- C1: for every mutable flow and every emit of a value different from the
current one, if one or more of the listeners subscribed at the start of the
emit throw, then every snapshot listener is still invoked exactly once, the
value is updated to the emitted value (never rolled back or skipped), and
after all listeners ran `emit` throws exactly one aggregated error whose
message is the fixed constant "Failed to call flow listeners" and whose
payload is the list of thrown errors in listener-invocation order. -/
theorem emit_listener_failure_contract (s : FlowState) (v : Nat)
    (hv : v ≠ s.value) (hwf : s.wf)
    (hthrow : s.listeners.filterMap (fun e => thrownOf e.2) ≠ []) :
    (emit s v).invoked = s.listeners.map Prod.fst ∧
    (emit s v).invoked.Nodup ∧
    (emit s v).state.value = v ∧
    (emit s v).thrown =
      some ⟨failedToCallMsg, s.listeners.filterMap (fun e => thrownOf e.2)⟩ := by
  have hempty : (s.listeners.filterMap (fun e => thrownOf e.2)).isEmpty = false := by
    cases h' : s.listeners.filterMap (fun e => thrownOf e.2) with
    | nil => exact absurd h' hthrow
    | cons a t => rfl
  refine ⟨emit_invoked s v hv, ?_, emit_value s v hv, ?_⟩
  · rw [emit_invoked s v hv]; exact hwf.1
  · rw [emit_errors s v hv]
    simp [hempty]

/-- Witness for C1: a concrete cell with throwing listeners 0 and 2. -/
theorem emit_listener_failure_contract_witness :
    ((5 : Nat) ≠ exThrowCell.value ∧ exThrowCell.wf ∧
      exThrowCell.listeners.filterMap (fun e => thrownOf e.2) ≠ []) ∧
    ((emit exThrowCell 5).invoked = exThrowCell.listeners.map Prod.fst ∧
      (emit exThrowCell 5).invoked.Nodup ∧
      (emit exThrowCell 5).state.value = 5 ∧
      (emit exThrowCell 5).thrown =
        some ⟨failedToCallMsg, exThrowCell.listeners.filterMap (fun e => thrownOf e.2)⟩) :=
  ⟨⟨by decide, ⟨by decide, by decide⟩, by decide⟩,
    emit_listener_failure_contract exThrowCell 5 (by decide) ⟨by decide, by decide⟩ (by decide)⟩

/-- C2: the set of listeners notified by an emit is fixed when notification
begins: exactly the entry snapshot is invoked, once each and in order; ids
not yet allocated at entry (in particular subscriptions created during the
round) are not invoked in that round; every listener still present after
the round — including ones added during it — is invoked by the next emit;
and a listener unsubscribed by an earlier listener during the round is
still invoked once in that round (concrete scenarios mirror the validator
tests). -/
theorem notify_snapshot_fixed_at_emit_start (s : FlowState) (v : Nat)
    (hv : v ≠ s.value) (hwf : s.wf) :
    (emit s v).invoked = s.listeners.map Prod.fst ∧
    (emit s v).invoked.Nodup ∧
    (∀ k, s.nextId ≤ k → k ∉ (emit s v).invoked) ∧
    (∀ k, k ∈ (emit s v).state.listeners.map Prod.fst →
      ∀ v', v' ≠ (emit s v).state.value → k ∈ (emit (emit s v).state v').invoked) ∧
    (emit exUnsubCell 5).invoked = [0, 1] ∧
    (emit (emit exUnsubCell 5).state 6).invoked = [0] ∧
    (emit exSubDuringCell 5).invoked = [0] ∧
    (emit (emit exSubDuringCell 5).state 6).invoked = [0, 1] := by
  refine ⟨emit_invoked s v hv, ?_, ?_, ?_, by decide, by decide, by decide, by decide⟩
  · rw [emit_invoked s v hv]; exact hwf.1
  · intro k hk hmem
    rw [emit_invoked s v hv] at hmem
    exact absurd (hwf.2 _ hmem) (Nat.not_lt.mpr hk)
  · intro k hk v' hv'
    rw [emit_invoked _ _ hv']
    exact hk

/-- Witness for C2: a concrete cell with two quiet listeners. -/
theorem notify_snapshot_fixed_at_emit_start_witness :
    ((3 : Nat) ≠ exPlainCell.value ∧ exPlainCell.wf) ∧
    ((emit exPlainCell 3).invoked = exPlainCell.listeners.map Prod.fst ∧
      (emit exPlainCell 3).invoked.Nodup ∧
      (∀ k, exPlainCell.nextId ≤ k → k ∉ (emit exPlainCell 3).invoked) ∧
      (∀ k, k ∈ (emit exPlainCell 3).state.listeners.map Prod.fst →
        ∀ v', v' ≠ (emit exPlainCell 3).state.value →
          k ∈ (emit (emit exPlainCell 3).state v').invoked) ∧
      (emit exUnsubCell 5).invoked = [0, 1] ∧
      (emit (emit exUnsubCell 5).state 6).invoked = [0] ∧
      (emit exSubDuringCell 5).invoked = [0] ∧
      (emit (emit exSubDuringCell 5).state 6).invoked = [0, 1]) :=
  ⟨⟨by decide, ⟨by decide, by decide⟩⟩,
    notify_snapshot_fixed_at_emit_start exPlainCell 3 (by decide) ⟨by decide, by decide⟩⟩

/-- C3: emitting a value equal (reference-equal, modelled as equality on
the value) to the current one is a no-op: the cell is unchanged, no
listener is invoked, and the snapshot identity is unchanged. -/
theorem emit_equal_value_noop (s : FlowState) (v : Nat) (hv : v = getSnapshot s) :
    emit s v = ⟨s, [], none⟩ ∧ (emit s v).invoked = [] ∧
    getSnapshot (emit s v).state = getSnapshot s := by
  subst hv
  refine ⟨?_, ?_, ?_⟩ <;> simp [emit, getSnapshot]

/-- Witness for C3: re-emitting the current value 4 of a concrete cell. -/
theorem emit_equal_value_noop_witness :
    ((4 : Nat) = getSnapshot exNoopCell) ∧
    (emit exNoopCell 4 = ⟨exNoopCell, [], none⟩ ∧ (emit exNoopCell 4).invoked = [] ∧
      getSnapshot (emit exNoopCell 4).state = getSnapshot exNoopCell) :=
  ⟨by decide, emit_equal_value_noop exNoopCell 4 (by decide)⟩

/-- Example cell: one quiet listener, used for the subscription-order claim. -/
def exOrderCell : FlowState :=
  ⟨0, [(0, [])], 1⟩

/-- C6: listeners are notified in subscription order on each emit, and the
same listener function subscribed twice yields two independent entries with
distinct subscription ids, each contributing exactly one call per emit. -/
theorem listeners_notified_in_subscription_order (s : FlowState) (l : List LStep)
    (hwf : s.wf) (v : Nat) (hv : v ≠ s.value) :
    (subscribe s l).2 ≠ (subscribe (subscribe s l).1 l).2 ∧
    (emit (subscribe (subscribe s l).1 l).1 v).invoked
      = s.listeners.map Prod.fst ++ [(subscribe s l).2, (subscribe (subscribe s l).1 l).2] ∧
    (emit (subscribe (subscribe s l).1 l).1 v).invoked.Nodup := by
  have hv2 : v ≠ (subscribe (subscribe s l).1 l).1.value := hv
  refine ⟨?_, ?_, ?_⟩
  · simp [subscribe]
  · rw [emit_invoked _ _ hv2]
    simp [subscribe]
  · rw [emit_invoked _ _ hv2]
    exact (subscribe_wf (subscribe_wf hwf l) l).1

/-- Witness for C6: subscribing the same (empty) listener body twice to a
concrete cell and emitting 9. -/
theorem listeners_notified_in_subscription_order_witness :
    (exOrderCell.wf ∧ (9 : Nat) ≠ exOrderCell.value) ∧
    ((subscribe exOrderCell []).2 ≠ (subscribe (subscribe exOrderCell []).1 []).2 ∧
      (emit (subscribe (subscribe exOrderCell []).1 []).1 9).invoked
        = exOrderCell.listeners.map Prod.fst
          ++ [(subscribe exOrderCell []).2, (subscribe (subscribe exOrderCell []).1 []).2] ∧
      (emit (subscribe (subscribe exOrderCell []).1 []).1 9).invoked.Nodup) :=
  ⟨⟨⟨by decide, by decide⟩, by decide⟩,
    listeners_notified_in_subscription_order exOrderCell [] ⟨by decide, by decide⟩ 9 (by decide)⟩

/-- Example cell: one quiet listener, current value 2. -/
def exStableCell : FlowState :=
  ⟨2, [(0, [])], 1⟩

/-- C7: two `getSnapshot()` reads with no intervening emit return the same
reference — any sequence of non-emit operations (subscribe / unsubscribe)
leaves the snapshot unchanged, both on an arbitrary cell and on the cell
produced by any emit. -/
theorem getSnapshot_referentially_stable (s : FlowState) (ops : List FlowOp)
    (hne : ∀ op ∈ ops, op.isEmit = false) :
    getSnapshot (applyOps s ops) = getSnapshot s ∧
    ∀ v ops', (∀ op ∈ ops', op.isEmit = false) →
      getSnapshot (applyOps (emit s v).state ops') = getSnapshot (emit s v).state :=
  ⟨getSnapshot_applyOps_no_emit ops s hne,
    fun _ ops' h' => getSnapshot_applyOps_no_emit ops' _ h'⟩

/-- Witness for C7: a concrete cell with a subscribe and an unsubscribe
between the two reads, before and after an emit of 9. -/
theorem getSnapshot_referentially_stable_witness :
    (∀ op ∈ ([.sub [], .unsubOp 0] : List FlowOp), op.isEmit = false) ∧
    (getSnapshot (applyOps exStableCell [.sub [], .unsubOp 0]) = getSnapshot exStableCell ∧
      getSnapshot (applyOps (emit exStableCell 9).state [.sub []])
        = getSnapshot (emit exStableCell 9).state) :=
  ⟨by decide,
    (getSnapshot_referentially_stable exStableCell [.sub [], .unsubOp 0] (by decide)).1,
    (getSnapshot_referentially_stable exStableCell [.sub [], .unsubOp 0] (by decide)).2
      9 [.sub []] (by decide)⟩

/-- Example cell: two quiet listeners, used for the unsubscribe claim. -/
def exFinalCell : FlowState :=
  ⟨0, [(0, []), (1, [])], 2⟩

/-- C8: `unsubscribe` is total and idempotent (calling it any number of
times equals calling it once, and in the model it cannot raise), and after
the first call the listener is never notified again, whatever operations
and emits follow. -/
theorem unsubscribe_idempotent_and_final (s : FlowState) (sid : Nat)
    (hid : sid < s.nextId) :
    unsubscribe (unsubscribe s sid) sid = unsubscribe s sid ∧
    ∀ ops v, sid ∉ (emit (applyOps (unsubscribe s sid) ops) v).invoked := by
  constructor
  · simp [unsubscribe, List.filter_filter]
  · intro ops v
    have h1 : avoids (applyOps (unsubscribe s sid) ops) sid :=
      avoids_applyOps ops _ (avoids_of_unsubscribe_self hid)
    by_cases hv : v = (applyOps (unsubscribe s sid) ops).value
    · simp [emit, hv]
    · rw [emit_invoked _ _ hv]
      exact h1.1

/-- Witness for C8: unsubscribing id 0 from a concrete two-listener cell. -/
theorem unsubscribe_idempotent_and_final_witness :
    ((0 : Nat) < exFinalCell.nextId) ∧
    (unsubscribe (unsubscribe exFinalCell 0) 0 = unsubscribe exFinalCell 0 ∧
      ∀ ops v, (0 : Nat) ∉ (emit (applyOps (unsubscribe exFinalCell 0) ops) v).invoked) :=
  ⟨by decide, unsubscribe_idempotent_and_final exFinalCell 0 (by decide)⟩

/-! ## The AsyncFlow promise layer

Modelled from the spec: `AsyncFlow` is a `Flow` over the tagged union
`AsyncFlowState` together with a derived `asPromise()` accessor.  The
listener/notification behaviour is the Flow model above; here we model the
promise-management layer — an explicit outstanding-promise record cached
alongside the cell (spec §4.3, §4.4 and the design note on promise-identity
caching).  Promises are identified by numeric ids standing for object
identity; `result` is `none` while the promise is unsettled. -/

/-- The tagged union `AsyncFlowState<Data>`; data and errors are `Nat`. -/
inductive AsyncState where
  | pending (data : Option Nat)
  | success (data : Nat)
  | error (err : Nat) (data : Option Nat)
deriving Repr, DecidableEq

/-- Whether the status is `pending`. -/
def AsyncState.isPending : AsyncState → Bool
  | .pending _ => true
  | _ => false

/-- Settlement of a promise: resolved with data or rejected with an error. -/
inductive Settled where
  | ok (d : Nat)
  | err (e : Nat)
deriving Repr, DecidableEq

/-- A promise object: identity plus settlement (`none` = unsettled). -/
structure PromiseRec where
  id : Nat
  result : Option Settled
deriving Repr, DecidableEq

/-- Settle a promise with the given outcome; like a JavaScript promise, an
already-settled promise keeps its first settlement. -/
def settle (r : Settled) (p : PromiseRec) : PromiseRec :=
  match p.result with
  | none => { p with result := some r }
  | some _ => p

/-- Modelled from the spec: the async cell — current `AsyncFlowState`, the
cached promise of the current run (if `asPromise` was called), and a fresh
promise-id counter. -/
structure AsyncCell where
  state : AsyncState
  cache : Option PromiseRec
  nextPid : Nat
deriving Repr, DecidableEq

/-- Settlement a freshly created promise starts with, per status: already
resolved for `success`, already rejected for `error`, unsettled for
`pending`. -/
def statusResult : AsyncState → Option Settled
  | .pending _ => none
  | .success d => some (.ok d)
  | .error e _ => some (.err e)

/-- Modelled from the spec: `asPromise()` — return the cached promise when
one exists; otherwise create one according to the current status and cache
it. -/
def asPromise (c : AsyncCell) : AsyncCell × PromiseRec :=
  match c.cache with
  | some p => (c, p)
  | none =>
    let p : PromiseRec := ⟨c.nextPid, statusResult c.state⟩
    ({ c with cache := some p, nextPid := c.nextPid + 1 }, p)

theorem asPromise_cache_hit {c : AsyncCell} {p : PromiseRec} (h : c.cache = some p) :
    asPromise c = (c, p) := by
  simp only [asPromise, h]

theorem asPromise_cache_miss {c : AsyncCell} (h : c.cache = none) :
    asPromise c =
      ({ c with cache := some ⟨c.nextPid, statusResult c.state⟩, nextPid := c.nextPid + 1 },
        ⟨c.nextPid, statusResult c.state⟩) := by
  simp only [asPromise, h]

/-- How a state transition treats the cached promise: a
`pending → pending` transition keeps it, a transition out of `pending`
settles it with the transition payload and keeps the settled object, and a
transition from a non-pending status (in particular the start of a new
pending period) drops it so a fresh promise is allocated. -/
def nextCache : AsyncState → AsyncState → Option PromiseRec → Option PromiseRec
  | .pending _, .pending _, cache => cache
  | .pending _, .success d, cache => cache.map (settle (.ok d))
  | .pending _, .error e _, cache => cache.map (settle (.err e))
  | .success _, _, _ => none
  | .error _ _, _, _ => none

/-- Modelled from the spec: the promise-management part of
`MutableAsyncFlow.emit` — equality-gated state replacement plus the cache
transition of `nextCache` (listener fan-out is the Flow model above). -/
def asyncEmit (c : AsyncCell) (st : AsyncState) : AsyncCell :=
  if st = c.state then c
  else { c with state := st, cache := nextCache c.state st c.cache }

/-- Coherence of the cache with the status: unsettled while pending,
settled with the current payload otherwise.  Holds in every reachable
cell. -/
def AsyncCell.coh (c : AsyncCell) : Prop :=
  match c.state, c.cache with
  | _, none => True
  | .pending _, some p => p.result = none
  | .success d, some p => p.result = some (.ok d)
  | .error e _, some p => p.result = some (.err e)

/-- Promise ids in the cache are below the fresh-id counter. -/
def AsyncCell.pwf (c : AsyncCell) : Prop :=
  ∀ p, c.cache = some p → p.id < c.nextPid

theorem asPromise_cache (c : AsyncCell) :
    (asPromise c).1.cache = some (asPromise c).2 := by
  cases h : c.cache <;> simp [asPromise, h]

theorem asPromise_state (c : AsyncCell) : (asPromise c).1.state = c.state := by
  cases h : c.cache <;> simp [asPromise, h]

theorem asPromise_coh {c : AsyncCell} (h : c.coh) : (asPromise c).1.coh := by
  cases hc : c.cache with
  | some p => simpa [asPromise, hc] using h
  | none =>
    cases hs : c.state <;>
      simp_all [asPromise, statusResult, AsyncCell.coh]

theorem asPromise_pwf {c : AsyncCell} (h : c.pwf) : (asPromise c).1.pwf := by
  cases hc : c.cache with
  | some p => simpa [asPromise, hc] using h
  | none =>
    intro q hq
    simp only [asPromise, hc] at hq ⊢
    injection hq with hq
    subst hq
    simp

theorem settle_id (r : Settled) (p : PromiseRec) : (settle r p).id = p.id := by
  cases h : p.result <;> simp [settle, h]

theorem asyncEmit_coh {c : AsyncCell} (h : c.coh) (st : AsyncState) :
    (asyncEmit c st).coh := by
  obtain ⟨cst, ccache, cn⟩ := c
  by_cases hg : st = (AsyncCell.mk cst ccache cn).state
  · simpa [asyncEmit, hg] using h
  · rw [asyncEmit, if_neg hg]
    cases cst <;> cases st <;> cases ccache <;>
      simp_all [nextCache, AsyncCell.coh, settle]

theorem asyncEmit_pwf {c : AsyncCell} (h : c.pwf) (st : AsyncState) :
    (asyncEmit c st).pwf := by
  obtain ⟨cst, ccache, cn⟩ := c
  by_cases hg : st = (AsyncCell.mk cst ccache cn).state
  · simpa [asyncEmit, hg] using h
  · rw [asyncEmit, if_neg hg]
    intro q hq
    have hbase : ∀ p : PromiseRec, ccache = some p → p.id < cn := fun p hp => h p hp
    cases cst <;> cases st <;> cases ccache <;>
      simp_all [nextCache, settle_id] <;>
        (subst hq; rw [settle_id]; exact hbase)

theorem isPending_exists (st : AsyncState) (h : st.isPending = true) :
    ∃ od, st = .pending od := by
  cases st with
  | pending d => exact ⟨d, rfl⟩
  | success d => simp [AsyncState.isPending] at h
  | error e d => simp [AsyncState.isPending] at h

theorem coh_pending_result {c : AsyncCell} (h : c.coh) {p : PromiseRec}
    (hc : c.cache = some p) (hs : c.state.isPending = true) : p.result = none := by
  obtain ⟨cst, ccache, cn⟩ := c
  obtain ⟨od, rfl⟩ := isPending_exists cst hs
  have hc' : ccache = some p := hc
  subst hc'
  exact h

/-- Any sequence of pending-state emits leaves the cached promise, the
pending status and the promise-id counter untouched (the "same pending
run" preservation behind the promise-identity invariant). -/
theorem pending_foldl (sts : List AsyncState) :
    ∀ c : AsyncCell, (∀ st ∈ sts, st.isPending = true) → c.state.isPending = true →
      (sts.foldl asyncEmit c).cache = c.cache ∧
      (sts.foldl asyncEmit c).state.isPending = true ∧
      (sts.foldl asyncEmit c).nextPid = c.nextPid := by
  induction sts with
  | nil => exact fun c _ hp => ⟨rfl, hp, rfl⟩
  | cons st rest ih =>
    intro c hall hp
    have hst : st.isPending = true := hall st (List.mem_cons_self _ _)
    obtain ⟨od, hod⟩ := isPending_exists _ hp
    obtain ⟨od', hod'⟩ := isPending_exists _ hst
    have step : (asyncEmit c st).cache = c.cache ∧
        (asyncEmit c st).state.isPending = true ∧
        (asyncEmit c st).nextPid = c.nextPid := by
      by_cases hg : st = c.state
      · rw [asyncEmit, if_pos hg]; exact ⟨rfl, hp, rfl⟩
      · rw [asyncEmit, if_neg hg, hod, hod']
        simp [nextCache, AsyncState.isPending]
    have hrec := ih (asyncEmit c st) (fun x hx => hall x (List.mem_cons_of_mem _ hx)) step.2.1
    rw [List.foldl_cons]
    exact ⟨hrec.1.trans step.1, hrec.2.1, hrec.2.2.trans step.2.2⟩

/-- Example async cell: fresh flow in the initial pending state. -/
def exAsyncCell : AsyncCell := ⟨.pending none, none, 0⟩

/-- Example async cell: already-successful flow holding 42. -/
def exAsyncSuccess : AsyncCell := ⟨.success 42, none, 0⟩

/-- C4: while the status stays pending — including across further pending
emits — repeated `asPromise()` calls return the identical promise object;
and once the pending run's promise has been settled by a transition to
success, a new pending period yields a promise with a different identity. -/
theorem asPromise_identity_per_pending_run (c : AsyncCell)
    (hp : c.state.isPending = true) (hcoh : c.coh) (hwf : c.pwf) :
    (asPromise (asPromise c).1).2 = (asPromise c).2 ∧
    (∀ sts : List AsyncState, (∀ st ∈ sts, st.isPending = true) →
      (asPromise (sts.foldl asyncEmit (asPromise c).1)).2 = (asPromise c).2) ∧
    (∀ d st', st'.isPending = true →
      (asyncEmit (asPromise c).1 (.success d)).cache
          = some ⟨(asPromise c).2.id, some (.ok d)⟩ ∧
      (asPromise (asyncEmit (asyncEmit (asPromise c).1 (.success d)) st')).2.id
          ≠ (asPromise c).2.id) := by
  have h1 : (asPromise c).1.cache = some (asPromise c).2 := asPromise_cache c
  have hp1 : (asPromise c).1.state.isPending = true := by rw [asPromise_state]; exact hp
  obtain ⟨od, hod⟩ := isPending_exists _ hp1
  refine ⟨?_, ?_, ?_⟩
  · rw [asPromise_cache_hit h1]
  · intro sts hall
    have hfold := pending_foldl sts (asPromise c).1 hall hp1
    have hc : (sts.foldl asyncEmit (asPromise c).1).cache = some (asPromise c).2 :=
      hfold.1.trans h1
    rw [asPromise_cache_hit hc]
  · intro d st' hst'
    have hres : (asPromise c).2.result = none :=
      coh_pending_result (asPromise_coh hcoh) h1 hp1
    have hgate1 : ¬ (AsyncState.success d) = (asPromise c).1.state := by
      rw [hod]; simp
    have hcache1 : (asyncEmit (asPromise c).1 (.success d)).cache
        = some ⟨(asPromise c).2.id, some (.ok d)⟩ := by
      rw [asyncEmit, if_neg hgate1]
      show nextCache (asPromise c).1.state (.success d) (asPromise c).1.cache = _
      rw [hod, h1]
      simp [nextCache, settle, hres]
    refine ⟨hcache1, ?_⟩
    have hstate1 : (asyncEmit (asPromise c).1 (.success d)).state = .success d := by
      rw [asyncEmit, if_neg hgate1]
    obtain ⟨od', hod'⟩ := isPending_exists st' hst'
    have hgate2 : ¬ st' = (asyncEmit (asPromise c).1 (.success d)).state := by
      rw [hstate1, hod']; simp
    have hcache2 : (asyncEmit (asyncEmit (asPromise c).1 (.success d)) st').cache = none := by
      rw [asyncEmit, if_neg hgate2]
      show nextCache (asyncEmit (asPromise c).1 (.success d)).state st' _ = none
      rw [hstate1]
      simp [nextCache]
    have hnp1 : (asyncEmit (asPromise c).1 (.success d)).nextPid = (asPromise c).1.nextPid := by
      rw [asyncEmit, if_neg hgate1]
    have hnp2 : (asyncEmit (asyncEmit (asPromise c).1 (.success d)) st').nextPid
        = (asPromise c).1.nextPid := by
      rw [asyncEmit, if_neg hgate2]
      exact hnp1
    have hlt : (asPromise c).2.id < (asPromise c).1.nextPid := asPromise_pwf hwf _ h1
    have hid4 : (asPromise (asyncEmit (asyncEmit (asPromise c).1 (.success d)) st')).2.id
        = (asPromise c).1.nextPid := by
      rw [asPromise_cache_miss hcache2]
      exact hnp2
    rw [hid4]
    omega

/-- Witness for C4: the fresh pending async cell. -/
theorem asPromise_identity_per_pending_run_witness :
    (exAsyncCell.state.isPending = true ∧ exAsyncCell.coh ∧ exAsyncCell.pwf) ∧
    ((asPromise (asPromise exAsyncCell).1).2 = (asPromise exAsyncCell).2 ∧
      (∀ sts : List AsyncState, (∀ st ∈ sts, st.isPending = true) →
        (asPromise (sts.foldl asyncEmit (asPromise exAsyncCell).1)).2
          = (asPromise exAsyncCell).2) ∧
      (∀ d st', st'.isPending = true →
        (asyncEmit (asPromise exAsyncCell).1 (.success d)).cache
            = some ⟨(asPromise exAsyncCell).2.id, some (.ok d)⟩ ∧
        (asPromise (asyncEmit (asyncEmit (asPromise exAsyncCell).1 (.success d)) st')).2.id
            ≠ (asPromise exAsyncCell).2.id)) :=
  ⟨⟨rfl, trivial, fun _ hp => nomatch hp⟩,
    asPromise_identity_per_pending_run exAsyncCell rfl trivial (fun _ hp => nomatch hp)⟩

/-- C5: `asPromise()` settles according to the current status — success
yields a promise already resolved with the data, error one already
rejected with the error, and in pending the promise is unsettled and is
settled by the next transition to success or error with that transition's
payload. -/
theorem asPromise_settles_by_status (c : AsyncCell) (hcoh : c.coh) :
    (∀ d, c.state = .success d → (asPromise c).2.result = some (.ok d)) ∧
    (∀ e od, c.state = .error e od → (asPromise c).2.result = some (.err e)) ∧
    (∀ od, c.state = .pending od →
      (asPromise c).2.result = none ∧
      (∀ d, (asyncEmit (asPromise c).1 (.success d)).cache
          = some ⟨(asPromise c).2.id, some (.ok d)⟩) ∧
      (∀ e od', (asyncEmit (asPromise c).1 (.error e od')).cache
          = some ⟨(asPromise c).2.id, some (.err e)⟩)) := by
  obtain ⟨cst, ccache, cn⟩ := c
  refine ⟨?_, ?_, ?_⟩
  · intro d hs
    have hs' : cst = .success d := hs
    subst hs'
    cases ccache with
    | none => simp [asPromise, statusResult]
    | some p =>
      have hp : p.result = some (.ok d) := hcoh
      simp [asPromise, hp]
  · intro e od hs
    have hs' : cst = .error e od := hs
    subst hs'
    cases ccache with
    | none => simp [asPromise, statusResult]
    | some p =>
      have hp : p.result = some (.err e) := hcoh
      simp [asPromise, hp]
  · intro od hs
    have hs' : cst = .pending od := hs
    subst hs'
    cases ccache with
    | none =>
      refine ⟨rfl, ?_, ?_⟩
      · intro d
        simp [asPromise, asyncEmit, nextCache, settle, statusResult]
      · intro e od'
        simp [asPromise, asyncEmit, nextCache, settle, statusResult]
    | some p =>
      have hp : p.result = none := hcoh
      refine ⟨by simp [asPromise, hp], ?_, ?_⟩
      · intro d
        simp [asPromise, asyncEmit, nextCache, settle, hp]
      · intro e od'
        simp [asPromise, asyncEmit, nextCache, settle, hp]

/-- Witness for C5: the already-successful cell holding 42. -/
theorem asPromise_settles_by_status_witness :
    exAsyncSuccess.coh ∧
    ((∀ d, exAsyncSuccess.state = .success d →
        (asPromise exAsyncSuccess).2.result = some (.ok d)) ∧
      (∀ e od, exAsyncSuccess.state = .error e od →
        (asPromise exAsyncSuccess).2.result = some (.err e)) ∧
      (∀ od, exAsyncSuccess.state = .pending od →
        (asPromise exAsyncSuccess).2.result = none ∧
        (∀ d, (asyncEmit (asPromise exAsyncSuccess).1 (.success d)).cache
            = some ⟨(asPromise exAsyncSuccess).2.id, some (.ok d)⟩) ∧
        (∀ e od', (asyncEmit (asPromise exAsyncSuccess).1 (.error e od')).cache
            = some ⟨(asPromise exAsyncSuccess).2.id, some (.err e)⟩))) :=
  ⟨trivial, asPromise_settles_by_status exAsyncSuccess trivial⟩

/-! ## The test-runner adapter

Embedded from `src/utils/test-runner.ts`.  `describe` and `it` are opaque
host-framework functions, modelled by type parameters; `Option` models a
field that is absent or `undefined` (the TypeScript destructuring default
`const \x7b describe = globalThis.describe \x7d = config` applies exactly
then).  The returned `fn` (the `@vitest/spy` mock factory) and `assert`
object are built from fixed internal implementations, modelled by tokens
recording provenance; the configuration type has no such fields, exactly
as the TypeScript `TestRunner` interface. -/

/-- `Partial<TestRunner>`: optional `describe` and `it` supplied by the
caller. -/
structure TestRunnerConfig (α β : Type) where
  describe : Option α
  it : Option β

/-- The conventional global test-registration context (`globalThis`). -/
structure GlobalThisCtx (α β : Type) where
  describe : Option α
  it : Option β

/-- Provenance of the mock-function factory in the returned utilities. -/
inductive FnFactory where
  | vitestSpyFn
deriving Repr, DecidableEq

/-- Provenance of each assertion method in the returned utilities. -/
inductive AssertPrim where
  | nodeOk
  | nodeDeepStrictEqual
  | matchObjectImpl
  | nodeThrows
  | nodeDoesNotThrow
  | calledTimesImpl
deriving Repr, DecidableEq

/-- The `assert` bundle of `TestUtils`, by provenance of each method. -/
structure AssertBundle where
  ok : AssertPrim
  equal : AssertPrim
  matchObject : AssertPrim
  throws : AssertPrim
  doesNotThrow : AssertPrim
  calledTimes : AssertPrim
deriving Repr, DecidableEq

/-- The fixed internal `assert` object built in `initTestRunner` from
`node:assert` strict methods plus two inline helpers. -/
def internalAssert : AssertBundle :=
  ⟨.nodeOk, .nodeDeepStrictEqual, .matchObjectImpl, .nodeThrows, .nodeDoesNotThrow,
    .calledTimesImpl⟩

/-- The utilities returned by `initTestRunner`. -/
structure TestUtils (α β : Type) where
  describe : α
  it : β
  fn : FnFactory
  assert : AssertBundle

/-- The message thrown when no `describe` is available. -/
def describeMissingMsg : String :=
  "Test runner 'describe' function is not available. Please provide it in config or ensure your test framework is properly initialized."

/-- The message thrown when no `it` is available. -/
def itMissingMsg : String :=
  "Test runner 'it' function is not available. Please provide it in config or ensure your test framework is properly initialized."

/-- `initTestRunner(config)`: resolve `describe` and `it` independently —
each from the configuration when present, else from the global context —
and throw a descriptive error when either is unavailable; on success the
returned utilities carry the resolved pair plus the fixed internal `fn`
and `assert`. -/
def initTestRunner {α β : Type} (config : TestRunnerConfig α β) (glb : GlobalThisCtx α β) :
    Except String (TestUtils α β) :=
  match config.describe.orElse (fun _ => glb.describe) with
  | none => .error describeMissingMsg
  | some d =>
    match config.it.orElse (fun _ => glb.it) with
    | none => .error itMissingMsg
    | some i => .ok ⟨d, i, .vitestSpyFn, internalAssert⟩

/-- The suite names registered by `validateFlowImplementation` once the
test runner is initialized. -/
def flowSuiteNames : List String :=
  ["flow.getSnapshot()", "flow.subscribe()", "subscription.unsubscribe()",
    "emit handling", "listeners error handling"]

/-- Outcome of invoking a validator entry point: whether it threw, and the
test suites it registered. -/
structure ValidatorRun where
  outcome : Except String Unit
  registered : List String

/-- `validateFlowImplementation(options)`: its first step is
`initTestRunner(options.testRunner)` — an absent `testRunner` defaults to
the empty configuration — and only on success does it register the test
suites; an initialization error propagates before any registration. -/
def validateFlowImplementation {α β : Type} (testRunner : Option (TestRunnerConfig α β))
    (glb : GlobalThisCtx α β) : ValidatorRun :=
  match initTestRunner (testRunner.getD ⟨none, none⟩) glb with
  | .error m => ⟨.error m, []⟩
  | .ok _ => ⟨.ok (), flowSuiteNames⟩

/-- C9: a validator entry point invoked without a usable test-registration
mechanism — no `describe`/`it` in the configuration and none on the global
context — throws the descriptive error immediately, before registering any
test. -/
theorem validator_fails_fast_without_test_runner {α β : Type}
    (testRunner : Option (TestRunnerConfig α β)) (glb : GlobalThisCtx α β)
    (hcd : (testRunner.getD ⟨none, none⟩).describe = none)
    (_hci : (testRunner.getD ⟨none, none⟩).it = none)
    (hgd : glb.describe = none) (_hgi : glb.it = none) :
    (validateFlowImplementation testRunner glb).outcome = .error describeMissingMsg ∧
    (validateFlowImplementation testRunner glb).registered = [] := by
  rw [validateFlowImplementation, initTestRunner, hcd, hgd]
  exact ⟨rfl, rfl⟩

/-- Witness for C9: no configuration and an empty global context. -/
theorem validator_fails_fast_without_test_runner_witness :
    (((none : Option (TestRunnerConfig Nat Nat)).getD ⟨none, none⟩).describe = none ∧
      ((none : Option (TestRunnerConfig Nat Nat)).getD ⟨none, none⟩).it = none ∧
      (GlobalThisCtx.mk (α := Nat) (β := Nat) none none).describe = none ∧
      (GlobalThisCtx.mk (α := Nat) (β := Nat) none none).it = none) ∧
    ((validateFlowImplementation (none : Option (TestRunnerConfig Nat Nat))
        ⟨none, none⟩).outcome = .error describeMissingMsg ∧
      (validateFlowImplementation (none : Option (TestRunnerConfig Nat Nat))
        ⟨none, none⟩).registered = []) :=
  ⟨⟨rfl, rfl, rfl, rfl⟩,
    validator_fails_fast_without_test_runner none ⟨none, none⟩ rfl rfl rfl rfl⟩

/-- C10: `initTestRunner` resolves `describe` and `it` independently per
field — each taken from the configuration when present, else from the
global context — and on success the returned `fn` and `assert` are the
fixed internal implementations, never drawn from the configuration. -/
theorem initTestRunner_per_field_resolution {α β : Type}
    (config : TestRunnerConfig α β) (glb : GlobalThisCtx α β)
    (d : α) (i : β)
    (hd : config.describe.orElse (fun _ => glb.describe) = some d)
    (hi : config.it.orElse (fun _ => glb.it) = some i) :
    initTestRunner config glb = .ok ⟨d, i, .vitestSpyFn, internalAssert⟩ := by
  rw [initTestRunner, hd, hi]

/-- Witness for C10: a configuration supplying only `describe` combined
with a global context supplying only `it` succeeds, with the fixed
internal `fn` and `assert`. -/
theorem initTestRunner_per_field_resolution_witness :
    ((TestRunnerConfig.mk (some 3) (none : Option Nat)).describe.orElse
        (fun _ => (GlobalThisCtx.mk (none : Option Nat) (some 4)).describe) = some 3 ∧
      (TestRunnerConfig.mk (some 3) (none : Option Nat)).it.orElse
        (fun _ => (GlobalThisCtx.mk (none : Option Nat) (some 4)).it) = some 4) ∧
    initTestRunner (TestRunnerConfig.mk (some 3) (none : Option Nat))
        (GlobalThisCtx.mk (none : Option Nat) (some 4))
      = .ok ⟨3, 4, .vitestSpyFn, internalAssert⟩ :=
  ⟨⟨rfl, rfl⟩,
    initTestRunner_per_field_resolution (TestRunnerConfig.mk (some 3) none)
      (GlobalThisCtx.mk none (some 4)) 3 4 rfl rfl⟩

end Tsip
